import Mathlib

/-!
# Verification of the SWIGGY_DOI reconciliation pipeline (src/app.py)

A shallow embedding of the data pipeline in `src/app.py`: tables are lists of
records, pandas column operations become list maps/filters, `groupby(...).sum()`
becomes "deduplicate the keys, then sum the measure over the rows of each key",
and the left `pd.merge` becomes, for each left row, the list of matching right
rows (or a single row with a missing value when there is no match).

Numeric columns are modelled as exact rationals (`ℚ`); Python's `round(v, 2)`
(round-half-to-even at two decimals) becomes `round2`, `astype(int)`
(truncation toward zero) becomes `truncInt`, and `np.floor` becomes `Int.floor`.
A pandas `NaN` entry produced by an unmatched left-join row is an `Option` that
is `none`.

Group keys produced by a pandas `groupby` are kept in order of first occurrence
rather than sorted; no property below depends on the order in which the groups
are listed (the final table is re-sorted explicitly, as in the source).
-/

namespace SwiggyDoi

/- Batteries marks the arithmetic of `Rat` `@[irreducible]`; it is restored to
`semireducible` locally so that concrete rows of the embedded tables can be
evaluated inside proofs (`decide`/`rfl`). This does not change any definition,
only unfolding behaviour inside this file. -/
attribute [local semireducible] Rat.mul Rat.add Rat.sub Rat.inv

/-- Python `round(q, 2)` at the integer step: round half to even. -/
def roundHalfEven (q : ℚ) : ℤ :=
  let f : ℤ := ⌊q⌋
  let r : ℚ := q - (f : ℚ)
  if r < 1/2 then f
  else if 1/2 < r then f + 1
  else if f % 2 = 0 then f else f + 1

/-- Python `round(q, 2)`: round to two decimal places, half to even. -/
def round2 (q : ℚ) : ℚ := (roundHalfEven (q * 100) : ℚ) / 100

/-- Pandas `astype(int)`: truncation toward zero. -/
def truncInt (q : ℚ) : ℤ := if 0 ≤ q then ⌊q⌋ else ⌈q⌉

/-- A row of the uploaded sales CSV (`Sales_df`), with its `ORDERED_DATE`
already converted to a comparable time point (modelled as an integer). -/
structure SalesRow where
  ordered_date : ℤ
  city : String
  item_code : String
  units_sold : ℚ
  deriving DecidableEq, Repr

/-- A row of the uploaded inventory CSV (`Inventory_df`). -/
structure InventoryRow where
  city : String
  skuDescription : String
  skuCode : String
  openPoQuantity : ℚ
  warehouseQtyAvailable : ℚ
  deriving DecidableEq, Repr

/-- The grouping key of line 22: `['City', 'SkuDescription', 'SkuCode']`. -/
def invKey (r : InventoryRow) : String × String × String :=
  (r.city, r.skuDescription, r.skuCode)

/-- A row of `inventory_agg` (lines 21–25). -/
structure InvAggRow where
  city : String
  skuDescription : String
  skuCode : String
  openPoQuantity : ℚ
  warehouseQtyAvailable : ℚ
  deriving DecidableEq, Repr

/-- Lines 21–25: group the inventory by (City, SkuDescription, SkuCode) and sum
`OpenPoQuantity` and `WarehouseQtyAvailable` within each group. -/
def inventory_agg (inv : List InventoryRow) : List InvAggRow :=
  ((inv.map invKey).dedup).map (fun k =>
    { city := k.1, skuDescription := k.2.1, skuCode := k.2.2,
      openPoQuantity :=
        (((inv.filter (fun r => invKey r = k)).map (·.openPoQuantity)).sum),
      warehouseQtyAvailable :=
        (((inv.filter (fun r => invKey r = k)).map (·.warehouseQtyAvailable)).sum) })

/-- Line 28: `inventory_agg.set_index('SkuCode')['SkuDescription'].to_dict()`.
With duplicate `SkuCode` keys the last occurrence wins in the dict. -/
def item_to_product_map (agg : List InvAggRow) (code : String) : Option String :=
  ((agg.filter (fun r => r.skuCode = code)).map (·.skuDescription)).getLast?

/-- A sales row after line 29 added the mapped `PRODUCT_NAME` column
(`none` when the item code has no inventory match, i.e. pandas `NaN`). -/
structure SalesRowP where
  ordered_date : ℤ
  city : String
  item_code : String
  product_name : Option String
  units_sold : ℚ
  deriving DecidableEq, Repr

/-- Line 29: back-fill `PRODUCT_NAME` from the item-to-product dict. -/
def addProductName (agg : List InvAggRow) (s : List SalesRow) : List SalesRowP :=
  s.map (fun r =>
    { ordered_date := r.ordered_date, city := r.city, item_code := r.item_code,
      product_name := item_to_product_map agg r.item_code,
      units_sold := r.units_sold })

/-- The distinct order dates of the sales table, sorted ascending
(line 39: `drop_duplicates().sort_values()`). -/
def distinctDatesSorted (s : List SalesRowP) : List ℤ :=
  List.insertionSort (· ≤ ·) ((s.map (·.ordered_date)).dedup)

/-- Line 39: `.tail(x)` — the last `x` distinct dates. -/
def recent_dates (s : List SalesRowP) (x : ℕ) : List ℤ :=
  (distinctDatesSorted s).drop ((distinctDatesSorted s).length - x)

/-- Line 40: keep only the sales rows whose date lies in `recent_dates`. -/
def windowFilter (s : List SalesRowP) (x : ℕ) : List SalesRowP :=
  s.filter (fun r => r.ordered_date ∈ recent_dates s x)

/-- A row of `sales_filtered_grouped_df` (lines 43–48). -/
structure SalesGroupRow where
  city : String
  product_name : String
  item_code : String
  units_sold : ℚ
  deriving DecidableEq, Repr

/-- The grouping key of line 44: `['CITY', 'PRODUCT_NAME', 'ITEM_CODE']`.
Pandas drops rows whose group key contains a null, so a row with
`product_name = none` contributes no key. -/
def salesKey (r : SalesRowP) : Option (String × String × String) :=
  r.product_name.map (fun p => (r.city, p, r.item_code))

/-- Lines 43–47: group the (windowed) sales by (CITY, PRODUCT_NAME, ITEM_CODE)
and sum `UNITS_SOLD`; rows with a null product name are dropped by pandas. -/
def sales_grouped (s : List SalesRowP) : List SalesGroupRow :=
  ((s.filterMap salesKey).dedup).map (fun k =>
    { city := k.1, product_name := k.2.1, item_code := k.2.2,
      units_sold :=
        (((s.filter (fun r => salesKey r = some k)).map (·.units_sold)).sum) })

/-- `str.upper()`: upper-case every character of the string (structurally on
the character list, so that it reduces in the kernel). -/
def strUpper (s : String) : String := ⟨s.data.map Char.toUpper⟩

/-- Line 48: upper-case the `CITY` column — after the grouping of lines 43–47. -/
def sales_filtered_grouped (s : List SalesRowP) : List SalesGroupRow :=
  (sales_grouped s).map (fun r => { r with city := strUpper r.city })

/-- A row of `inventory_renamed` (lines 51–57). -/
structure InvRenRow where
  city : String
  item_code : String
  product_name : String
  open_po_quantity : ℚ
  warehouse_qty : ℚ
  deriving DecidableEq, Repr

/-- Lines 51–57: rename the aggregated inventory columns to the canonical
schema (a pure renaming/projection). -/
def inventory_renamed (agg : List InvAggRow) : List InvRenRow :=
  agg.map (fun r =>
    { city := r.city, item_code := r.skuCode, product_name := r.skuDescription,
      open_po_quantity := r.openPoQuantity, warehouse_qty := r.warehouseQtyAvailable })

/-- The join key of line 64 on the left table. -/
def invMergeKey (r : InvRenRow) : String × String × String :=
  (r.city, r.item_code, r.product_name)

/-- The join key of line 64 on the right table. -/
def salesMergeKey (r : SalesGroupRow) : String × String × String :=
  (r.city, r.item_code, r.product_name)

/-- A row of `merged_df` right after the merge of lines 61–66:
`units_sold = none` models the `NaN` of an unmatched left row. -/
structure MergedRow where
  city : String
  item_code : String
  product_name : String
  open_po_quantity : ℚ
  warehouse_qty : ℚ
  units_sold : Option ℚ
  deriving DecidableEq, Repr

/-- The contribution of one left (inventory) row to the left join of lines
61–66: one output row per matching right (sales) row, or a single row with a
missing `UNITS_SOLD` when no right row matches. -/
def mergeOne (sg : List SalesGroupRow) (i : InvRenRow) : List MergedRow :=
  let ms := sg.filter (fun s => salesMergeKey s = invMergeKey i)
  if ms.isEmpty then
    [{ city := i.city, item_code := i.item_code, product_name := i.product_name,
       open_po_quantity := i.open_po_quantity, warehouse_qty := i.warehouse_qty,
       units_sold := none }]
  else
    ms.map (fun s =>
      { city := i.city, item_code := i.item_code, product_name := i.product_name,
        open_po_quantity := i.open_po_quantity, warehouse_qty := i.warehouse_qty,
        units_sold := some s.units_sold })

/-- Lines 61–66: `pd.merge(inventory_renamed, sales_selected, on=[CITY,
ITEM_CODE, PRODUCT_NAME], how=left)`, assembled left row by left row. -/
def merged (invr : List InvRenRow) (sg : List SalesGroupRow) : List MergedRow :=
  invr.flatMap (mergeOne sg)

/-- A merged row after the fill/coerce step of lines 69–71. -/
structure FilledRow where
  city : String
  item_code : String
  product_name : String
  units_sold : ℤ
  warehouse_qty : ℤ
  open_po_quantity : ℤ
  deriving DecidableEq, Repr

/-- Lines 69–71: `fillna(0).astype(int)` on the three numeric columns. -/
def fillRows (m : List MergedRow) : List FilledRow :=
  m.map (fun r =>
    { city := r.city, item_code := r.item_code, product_name := r.product_name,
      units_sold := truncInt (r.units_sold.getD 0),
      warehouse_qty := truncInt r.warehouse_qty,
      open_po_quantity := truncInt r.open_po_quantity })

/-- A merged row with the derived `DAILY_SALES` and `DOI` columns. -/
structure DoiRow where
  city : String
  item_code : String
  product_name : String
  units_sold : ℤ
  warehouse_qty : ℤ
  open_po_quantity : ℤ
  daily_sales : ℚ
  doi : ℚ
  deriving DecidableEq, Repr

/-- Lines 74–78: `DAILY_SALES = UNITS_SOLD / x` and
`DOI = round(WAREHOUSE_QTY / DAILY_SALES, 2) if DAILY_SALES > 0 else 0`. -/
def withDoi (x : ℕ) (rows : List FilledRow) : List DoiRow :=
  rows.map (fun r =>
    let ds : ℚ := (r.units_sold : ℚ) / (x : ℚ)
    { city := r.city, item_code := r.item_code, product_name := r.product_name,
      units_sold := r.units_sold, warehouse_qty := r.warehouse_qty,
      open_po_quantity := r.open_po_quantity,
      daily_sales := ds,
      doi := if 0 < ds then round2 ((r.warehouse_qty : ℚ) / ds) else 0 })

/-- Scan of line 81's regex, on the lowered character list: does `pat` occur
as a contiguous substring of `s`? -/
def containsSubList (pat : List Char) : List Char → Bool
  | [] => pat.isEmpty
  | c :: t => pat.isPrefixOf (c :: t) || containsSubList pat t

/-- `str.lower()`: lower-case every character of the string (structurally on
the character list, so that it reduces in the kernel). -/
def strLower (s : String) : String := ⟨s.data.map Char.toLower⟩

/-- Line 81's predicate on a non-null name: the product name contains
"gift", "celebration" or "sample", case-insensitively. -/
def denyName (s : String) : Bool :=
  containsSubList "gift".data (strLower s).data ||
  containsSubList "celebration".data (strLower s).data ||
  containsSubList "sample".data (strLower s).data

/-- Line 81's `str.contains(..., case=False, na=False)` on a possibly-null
entry: a null product name does not match (`na=False`). -/
def denyNa : Option String → Bool
  | none => false
  | some s => denyName s

/-- Line 81: drop every row whose product name matches the denylist. -/
def exclusionFilter (rows : List DoiRow) : List DoiRow :=
  rows.filter (fun r => !(denyNa (some r.product_name)))

/-- A row of `final_df` (lines 85–87). -/
structure FinalRow where
  city : String
  item_code : String
  product_name : String
  units_sold : ℤ
  warehouse_qty : ℤ
  open_po_quantity : ℤ
  doi : ℚ
  deriving DecidableEq, Repr

/-- Lines 85–86: project the displayed columns and floor the DOI. -/
def finalRows (rows : List DoiRow) : List FinalRow :=
  (exclusionFilter rows).map (fun r =>
    { city := r.city, item_code := r.item_code, product_name := r.product_name,
      units_sold := r.units_sold, warehouse_qty := r.warehouse_qty,
      open_po_quantity := r.open_po_quantity,
      doi := (⌊r.doi⌋ : ℚ) })

/-- Lexicographic comparison of strings by code point, as Python compares
`CITY` values during the sort of line 87 and the option sorts of lines
119–120. Structurally recursive on the character lists, so that it reduces in
the kernel; `strLt_iff` identifies it with Mathlib's order on `String`. -/
def strLt (a b : String) : Prop := List.lt a.data b.data

instance : DecidableRel strLt := fun a b => List.hasDecidableLt a.data b.data

theorem strLt_iff (a b : String) : strLt a b ↔ a < b := by
  rw [String.lt_iff_toList_lt]
  exact List.lt_iff_lex_lt _ _

/-- The sort key of line 87: city ascending, then DOI descending. -/
def finalRel (a b : FinalRow) : Prop :=
  strLt a.city b.city ∨ (a.city = b.city ∧ b.doi ≤ a.doi)

instance : DecidableRel finalRel := fun a b => by
  unfold finalRel; infer_instance

/-- Line 87: `sort_values(by=['CITY', 'DOI'], ascending=[True, False])`. -/
def sortFinal (rows : List FinalRow) : List FinalRow :=
  List.insertionSort finalRel rows

/-- The `merged_df` table of lines 61–78 as a function of the two uploaded
tables and the window size `x` (before the exclusion filter). -/
def pipelineDoiRows (inv : List InventoryRow) (sales : List SalesRow) (x : ℕ) :
    List DoiRow :=
  let agg := inventory_agg inv
  let sp := addProductName agg sales
  let fil := windowFilter sp x
  let sg := sales_filtered_grouped fil
  withDoi x (fillRows (merged (inventory_renamed agg) sg))

/-- The `merged_df` table right after the merge of lines 61–66. -/
def pipelineMerged (inv : List InventoryRow) (sales : List SalesRow) (x : ℕ) :
    List MergedRow :=
  let agg := inventory_agg inv
  merged (inventory_renamed agg)
    (sales_filtered_grouped (windowFilter (addProductName agg sales) x))

/-- The displayed `final_df` of lines 85–87. -/
def final_df (inv : List InventoryRow) (sales : List SalesRow) (x : ℕ) :
    List FinalRow :=
  sortFinal (finalRows (pipelineDoiRows inv sales x))

/-- Ascending string order, as used by Python `sorted` on the option lists of
lines 119–120: `a` precedes `b` when `b` is not strictly below `a`. -/
def strAsc (a b : String) : Prop := ¬ strLt b a

instance : DecidableRel strAsc := fun a b =>
  if h : strLt b a then .isFalse (fun hn => hn h) else .isTrue h

theorem strAsc_iff_le (a b : String) : strAsc a b ↔ a ≤ b := by
  rw [strAsc, strLt_iff]
  exact not_lt

/-- Line 119: `sorted(final_df['CITY'].unique().tolist())`. -/
def all_cities (final : List FinalRow) : List String :=
  List.insertionSort strAsc ((final.map (·.city)).dedup)

/-- Line 120: `sorted(final_df['PRODUCT_NAME'].unique().tolist())`. -/
def all_products (final : List FinalRow) : List String :=
  List.insertionSort strAsc ((final.map (·.product_name)).dedup)

/-- Lines 160–161: a raw multi-selection that is empty or contains "All"
resolves to the full universe of its dimension. -/
def resolveSel (allOpts raw : List String) : List String :=
  if "All" ∈ raw ∨ raw = [] then allOpts else raw

/-- Lines 164–166: restrict `final_df` to the resolved city and product
selections. -/
def slicerFiltered (final : List FinalRow) (selCraw selPraw : List String) :
    List FinalRow :=
  final.filter (fun r =>
    decide (r.city ∈ resolveSel (all_cities final) selCraw) &&
    decide (r.product_name ∈ resolveSel (all_products final) selPraw))

/-- One row of the recomputation of lines 172–177: re-derive `DAILY_SALES`
and `DOI` from the row's `UNITS_SOLD` and `WAREHOUSE_QTY` columns. -/
def recRow (x : ℕ) (r : FinalRow) : DoiRow :=
  let ds : ℚ := (r.units_sold : ℚ) / (x : ℚ)
  { city := r.city, item_code := r.item_code, product_name := r.product_name,
    units_sold := r.units_sold, warehouse_qty := r.warehouse_qty,
    open_po_quantity := r.open_po_quantity,
    daily_sales := ds,
    doi := if 0 < ds then round2 ((r.warehouse_qty : ℚ) / ds) else 0 }

/-- Lines 172–177: the recomputation applied to every filtered row. -/
def recomputeMetrics (x : ℕ) (rows : List FinalRow) : List DoiRow :=
  rows.map (recRow x)

/-- A row of the by-city aggregate of lines 181–187. -/
structure CityGroupRow where
  city : String
  units_sold : ℤ
  warehouse_qty : ℤ
  open_po_quantity : ℤ
  daily_sales : ℚ
  doi : ℚ
  deriving DecidableEq, Repr

/-- Lines 181–187: group by `CITY`, sum the three quantity columns, recompute
`DAILY_SALES` and `DOI` from the sums, and floor the DOI. -/
def groupByCity (x : ℕ) (rows : List DoiRow) : List CityGroupRow :=
  ((rows.map (·.city)).dedup).map (fun c =>
    let sub := rows.filter (fun r => r.city = c)
    let us : ℤ := ((sub.map (·.units_sold)).sum)
    let wq : ℤ := ((sub.map (·.warehouse_qty)).sum)
    let opo : ℤ := ((sub.map (·.open_po_quantity)).sum)
    let ds : ℚ := (us : ℚ) / (x : ℚ)
    { city := c, units_sold := us, warehouse_qty := wq, open_po_quantity := opo,
      daily_sales := ds,
      doi := (⌊if 0 < ds then round2 ((wq : ℚ) / ds) else 0⌋ : ℚ) })

/-- The slicer output when only cities carry an explicit selection
(lines 164–166, 172–177, 180–188). -/
def slicer_by_city (final : List FinalRow) (x : ℕ)
    (selCraw selPraw : List String) : List CityGroupRow :=
  groupByCity x (recomputeMetrics x (slicerFiltered final selCraw selPraw))

/-- The slicer output when both dimensions carry an explicit selection
(lines 164–166, 172–177, 202–205): project the detail columns and floor the
(recomputed) DOI. -/
def slicer_detail (final : List FinalRow) (x : ℕ)
    (selCraw selPraw : List String) : List FinalRow :=
  (recomputeMetrics x (slicerFiltered final selCraw selPraw)).map (fun r =>
    { city := r.city, item_code := r.item_code, product_name := r.product_name,
      units_sold := r.units_sold, warehouse_qty := r.warehouse_qty,
      open_po_quantity := r.open_po_quantity,
      doi := (⌊r.doi⌋ : ℚ) })

/-! ## Column access (lines 17–44)

The source performs no explicit schema validation: the first pandas access to
an absent column raises a `KeyError` naming that column, which aborts the run
and is surfaced to the user. A column access is therefore modelled as a
fallible lookup in the table's column list, and the load phase as the chain of
accesses the source performs, in source order. -/

/-- One pandas column access: `KeyError(c)` when column `c` is absent. -/
def getCol (cols : List String) (c : String) : Except String Unit :=
  if c ∈ cols then Except.ok () else Except.error c

/-- Access each required column in turn, stopping at the first absent one. -/
def checkAll (cols : List String) : List String → Except String Unit
  | [] => Except.ok ()
  | c :: cs => do
      _ ← getCol cols c
      checkAll cols cs

/-- The inventory columns accessed by lines 21–28, in access order. -/
def requiredInventoryCols : List String :=
  ["City", "SkuDescription", "SkuCode", "OpenPoQuantity", "WarehouseQtyAvailable"]

/-- The sales columns accessed by lines 29–44, in access order. -/
def requiredSalesCols : List String :=
  ["ITEM_CODE", "ORDERED_DATE", "CITY", "UNITS_SOLD"]

/-- The column accesses of the load/aggregation phase (lines 17–44):
inventory columns first (lines 21–28), then sales columns (lines 29–44). -/
def loadColumns (invCols salesCols : List String) : Except String Unit := do
  _ ← checkAll invCols requiredInventoryCols
  checkAll salesCols requiredSalesCols

/-! ## Sample tables

Small concrete tables used to instantiate the theorems below (witnesses and
counterexamples). `invA`/`salesA` is the Widget/Gadget scenario of the spec
(§8): 50 units over a 5-day window against 100 in stock. -/

/-- Sample inventory: two SKUs in one city. -/
def invA : List InventoryRow :=
  [⟨"MUMBAI", "Widget", "I1", 10, 100⟩, ⟨"MUMBAI", "Gadget", "I2", 0, 5⟩]

/-- Sample sales: 50 units of I1 on one date. -/
def salesA : List SalesRow := [⟨1, "MUMBAI", "I1", 50⟩]

/-- The I1 row of `pipelineDoiRows invA salesA 5`. -/
def rowA : DoiRow := ⟨"MUMBAI", "I1", "Widget", 50, 100, 10, 10, 10⟩

/-- Sample inventory whose single item yields the raw DOI ratio 99.996. -/
def invC3 : List InventoryRow := [⟨"MUMBAI", "Widget", "I1", 0, 24999⟩]

/-- Sample sales giving daily sales 250 over a 1-day window. -/
def salesC3 : List SalesRow := [⟨1, "MUMBAI", "I1", 250⟩]

/-- The single row of `final_df invC3 salesC3 1`. -/
def rowC3 : FinalRow := ⟨"MUMBAI", "I1", "Widget", 250, 24999, 0, 100⟩

/-! ## Row-shape lemmas for the derived-metric columns -/

/-- Every row of `merged_df` (lines 74–78) carries
`DAILY_SALES = UNITS_SOLD / x` and the guarded DOI. -/
theorem pipelineDoi_row_shape (inv : List InventoryRow) (sales : List SalesRow)
    (x : ℕ) (r : DoiRow) (hr : r ∈ pipelineDoiRows inv sales x) :
    r.daily_sales = (r.units_sold : ℚ) / (x : ℚ) ∧
    r.doi = (if 0 < r.daily_sales then
      round2 ((r.warehouse_qty : ℚ) / r.daily_sales) else 0) := by
  simp only [pipelineDoiRows, withDoi, List.mem_map] at hr
  obtain ⟨f, -, rfl⟩ := hr
  exact ⟨rfl, rfl⟩

/-- Every row of `final_df` is the floor-projection of a row of `merged_df`
that survived the exclusion filter. -/
theorem final_row_shape (inv : List InventoryRow) (sales : List SalesRow)
    (x : ℕ) (r : FinalRow) (hr : r ∈ final_df inv sales x) :
    ∃ d ∈ pipelineDoiRows inv sales x,
      r.city = d.city ∧ r.item_code = d.item_code ∧
      r.product_name = d.product_name ∧ r.units_sold = d.units_sold ∧
      r.warehouse_qty = d.warehouse_qty ∧
      r.open_po_quantity = d.open_po_quantity ∧ r.doi = (⌊d.doi⌋ : ℚ) := by
  simp only [final_df, sortFinal, List.mem_insertionSort, finalRows,
    List.mem_map] at hr
  obtain ⟨d, hd, rfl⟩ := hr
  exact ⟨d, List.mem_of_mem_filter hd, rfl, rfl, rfl, rfl, rfl, rfl, rfl⟩

/-- The DOI displayed in `final_df` is the floor of the rounded guarded ratio,
expressed in the row's own `UNITS_SOLD`/`WAREHOUSE_QTY` columns. -/
theorem final_doi_eq (inv : List InventoryRow) (sales : List SalesRow)
    (x : ℕ) (r : FinalRow) (hr : r ∈ final_df inv sales x) :
    r.doi = (⌊if 0 < (r.units_sold : ℚ) / (x : ℚ) then
      round2 ((r.warehouse_qty : ℚ) / ((r.units_sold : ℚ) / (x : ℚ)))
      else 0⌋ : ℚ) := by
  obtain ⟨d, hd, hc, hi, hp, hu, hw, ho, hdoi⟩ := final_row_shape inv sales x r hr
  obtain ⟨hds, hdoi2⟩ := pipelineDoi_row_shape inv sales x d hd
  rw [hdoi, hdoi2, hds, hu, hw]

/-- C2: for every row of the reconciled table (`merged_df` after lines 74–78),
`DOI` equals `round(WAREHOUSE_QTY / DAILY_SALES, 2)` when `DAILY_SALES > 0`
and equals exactly `0` when `DAILY_SALES = 0`; the division is performed only
inside the guarded branch, so a zero daily rate yields the exact value `0`
(never an infinity or NaN). -/
theorem C2_doi_zero_guard (inv : List InventoryRow) (sales : List SalesRow)
    (x : ℕ) (r : DoiRow) (hr : r ∈ pipelineDoiRows inv sales x) :
    (0 < r.daily_sales →
      r.doi = round2 ((r.warehouse_qty : ℚ) / r.daily_sales)) ∧
    (r.daily_sales = 0 → r.doi = 0) := by
  obtain ⟨-, hdoi⟩ := pipelineDoi_row_shape inv sales x r hr
  constructor
  · intro h
    rw [hdoi, if_pos h]
  · intro h
    rw [hdoi, h, if_neg (lt_irrefl 0)]

/-- Witness for C2 at the Widget row of the sample data. -/
theorem C2_doi_zero_guard_witness :
    (0 < rowA.daily_sales →
      rowA.doi = round2 ((rowA.warehouse_qty : ℚ) / rowA.daily_sales)) ∧
    (rowA.daily_sales = 0 → rowA.doi = 0) :=
  C2_doi_zero_guard invA salesA 5 rowA (by decide)

/-- C3: the DOI displayed in `final_df` is `floor(round(WAREHOUSE_QTY /
DAILY_SALES, 2))`, rounding to two decimals first and flooring second; on the
sample table whose raw ratio is 99.996 the displayed DOI is 100, while the
floor of the raw ratio is 99, so the two-step order is observable. -/
theorem C3_round_then_floor (inv : List InventoryRow) (sales : List SalesRow)
    (x : ℕ) (r : FinalRow) (hr : r ∈ final_df inv sales x) :
    (r.doi = (⌊if 0 < (r.units_sold : ℚ) / (x : ℚ) then
      round2 ((r.warehouse_qty : ℚ) / ((r.units_sold : ℚ) / (x : ℚ)))
      else 0⌋ : ℚ)) ∧
    ((final_df invC3 salesC3 1).map (·.doi) = [100] ∧
      ⌊(24999 : ℚ) / 250⌋ = 99) :=
  ⟨final_doi_eq inv sales x r hr, by decide, by decide⟩

/-- Witness for C3 at the single row of the 99.996-ratio sample table. -/
theorem C3_round_then_floor_witness :
    (rowC3.doi = (⌊if 0 < (rowC3.units_sold : ℚ) / ((1 : ℕ) : ℚ) then
      round2 ((rowC3.warehouse_qty : ℚ) /
        ((rowC3.units_sold : ℚ) / ((1 : ℕ) : ℚ)))
      else 0⌋ : ℚ)) ∧
    ((final_df invC3 salesC3 1).map (·.doi) = [100] ∧
      ⌊(24999 : ℚ) / 250⌋ = 99) :=
  C3_round_then_floor invC3 salesC3 1 rowC3 (by decide)


/-! ## C7: monotonicity of the trailing window -/

/-- Dropping more of a list keeps a subset of what dropping less keeps. -/
theorem drop_subset_of_le {α : Type} (l : List α) {a b : ℕ} (h : b ≤ a) :
    l.drop a ⊆ l.drop b := by
  intro x hx
  have heq : l.drop a = (l.drop b).drop (a - b) := by
    rw [List.drop_drop, Nat.add_sub_cancel' h]
  rw [heq] at hx
  exact List.drop_subset _ _ hx

/-- A smaller trailing window selects a subset of the distinct dates. -/
theorem recent_dates_mono (s : List SalesRowP) {n₁ n₂ : ℕ} (h : n₁ ≤ n₂) :
    recent_dates s n₁ ⊆ recent_dates s n₂ :=
  drop_subset_of_le _ (Nat.sub_le_sub_left h _)

/-- Sample windowed sales rows over two distinct dates. -/
def spW : List SalesRowP :=
  [⟨1, "A", "I1", some "P1", 2⟩, ⟨2, "A", "I1", some "P1", 3⟩]

/-- The date-2 row of `spW`, kept by every window. -/
def rW : SalesRowP := ⟨2, "A", "I1", some "P1", 3⟩

/-- C7: for window sizes n₁ ≤ n₂ (each between 1 and the number of distinct
sale dates), every sales record kept by the selector of lines 39–40 under n₁
is also kept under n₂. -/
theorem C7_window_monotone (s : List SalesRowP) (n₁ n₂ : ℕ)
    (h1 : 1 ≤ n₁) (h12 : n₁ ≤ n₂)
    (h2 : n₂ ≤ (distinctDatesSorted s).length)
    (r : SalesRowP) (hr : r ∈ windowFilter s n₁) :
    r ∈ windowFilter s n₂ := by
  rw [windowFilter, List.mem_filter] at hr ⊢
  refine ⟨hr.1, ?_⟩
  have hd := hr.2
  simp only [decide_eq_true_eq] at hd ⊢
  exact recent_dates_mono s h12 hd

/-- Witness for C7: the last-date row survives widening the window from 1 to
2 days. -/
theorem C7_window_monotone_witness : rW ∈ windowFilter spW 2 :=
  C7_window_monotone spW 1 2 (by decide) (by decide) (by decide) rW (by decide)

/-! ## C8: the exclusion filter -/

/-- C8: a row of the reconciled table is removed by line 81 exactly when its
product name contains, case-insensitively as a substring, one of the literal
terms "gift", "celebration", "sample" (`denyName`); and the `na=False`
handling keeps a null product name (`denyNa none = false`). -/
theorem C8_exclusion (inv : List InventoryRow) (sales : List SalesRow)
    (x : ℕ) (r : DoiRow) :
    ((r ∈ pipelineDoiRows inv sales x ∧
        r ∉ exclusionFilter (pipelineDoiRows inv sales x)) ↔
      (r ∈ pipelineDoiRows inv sales x ∧ denyName r.product_name = true)) ∧
    denyNa none = false := by
  refine ⟨?_, rfl⟩
  constructor
  · rintro ⟨hmem, hnot⟩
    refine ⟨hmem, ?_⟩
    by_contra h
    apply hnot
    rw [exclusionFilter, List.mem_filter]
    refine ⟨hmem, ?_⟩
    simp only [Bool.not_eq_true] at h
    simp [denyNa, h]
  · rintro ⟨hmem, hdeny⟩
    refine ⟨hmem, ?_⟩
    intro hmemf
    rw [exclusionFilter, List.mem_filter] at hmemf
    have h2 := hmemf.2
    rw [denyNa] at h2
    rw [hdeny] at h2
    exact Bool.false_ne_true h2

/-! ## C9: missing required columns abort the load -/

/-- If every required column is present, the access chain succeeds. -/
theorem checkAll_ok (cols req : List String) (h : ∀ c ∈ req, c ∈ cols) :
    checkAll cols req = Except.ok () := by
  induction req with
  | nil => rfl
  | cons c cs ih =>
      have hc : c ∈ cols := h c (List.mem_cons_self c cs)
      simp only [checkAll, getCol, if_pos hc]
      exact ih (fun d hd => h d (List.mem_cons_of_mem c hd))

/-- If some required column is absent, the access chain fails naming a
required-but-absent column. -/
theorem checkAll_error (cols req : List String)
    (h : ∃ c ∈ req, c ∉ cols) :
    ∃ e, checkAll cols req = Except.error e ∧ e ∈ req ∧ e ∉ cols := by
  induction req with
  | nil => simp at h
  | cons c cs ih =>
      by_cases hc : c ∈ cols
      · obtain ⟨e0, he0mem, he0⟩ := h
        rcases List.mem_cons.mp he0mem with rfl | hcs
        · exact absurd hc he0
        · obtain ⟨e, heq, hmem, hnot⟩ := ih ⟨e0, hcs, he0⟩
          refine ⟨e, ?_, List.mem_cons_of_mem c hmem, hnot⟩
          simp only [checkAll, getCol, if_pos hc]
          exact heq
      · refine ⟨c, ?_, List.mem_cons_self c cs, hc⟩
        simp only [checkAll, getCol, if_neg hc]
        rfl

/-- C9: if a required source column is absent from either uploaded table, the
load phase of lines 17–44 terminates in an error naming a required column
that is absent (the pandas `KeyError` surfaced to the user), and no result is
produced. -/
theorem C9_missing_column (invCols salesCols : List String)
    (h : (∃ c ∈ requiredInventoryCols, c ∉ invCols) ∨
      (∃ c ∈ requiredSalesCols, c ∉ salesCols)) :
    ∃ e, loadColumns invCols salesCols = Except.error e ∧
      ((e ∈ requiredInventoryCols ∧ e ∉ invCols) ∨
        (e ∈ requiredSalesCols ∧ e ∉ salesCols)) := by
  by_cases hinv : ∀ c ∈ requiredInventoryCols, c ∈ invCols
  · have hsales : ∃ c ∈ requiredSalesCols, c ∉ salesCols := by
      rcases h with ⟨c, hcm, hcn⟩ | hs
      · exact absurd (hinv c hcm) hcn
      · exact hs
    obtain ⟨e, heq, hmem, hnot⟩ := checkAll_error salesCols requiredSalesCols hsales
    refine ⟨e, ?_, Or.inr ⟨hmem, hnot⟩⟩
    simp only [loadColumns, checkAll_ok invCols requiredInventoryCols hinv]
    exact heq
  · push_neg at hinv
    obtain ⟨c0, hc0m, hc0n⟩ := hinv
    obtain ⟨e, heq, hmem, hnot⟩ :=
      checkAll_error invCols requiredInventoryCols ⟨c0, hc0m, hc0n⟩
    refine ⟨e, ?_, Or.inl ⟨hmem, hnot⟩⟩
    simp only [loadColumns, heq]
    rfl

/-- Witness for C9: an inventory table exposing only a City column is
rejected with an error naming a missing required column. -/
theorem C9_missing_column_witness :
    ∃ e, loadColumns ["City"] requiredSalesCols = Except.error e ∧
      ((e ∈ requiredInventoryCols ∧ e ∉ (["City"] : List String)) ∨
        (e ∈ requiredSalesCols ∧ e ∉ requiredSalesCols)) :=
  C9_missing_column ["City"] requiredSalesCols (by decide)

/-! ## C10: the displayed order of the final table -/

instance : IsTrans FinalRow finalRel := ⟨by
  intro a b c hab hbc
  simp only [finalRel, strLt_iff] at hab hbc ⊢
  rcases hab with h1 | ⟨e1, d1⟩ <;> rcases hbc with h2 | ⟨e2, d2⟩
  · exact Or.inl (lt_trans h1 h2)
  · exact Or.inl (e2 ▸ h1)
  · exact Or.inl (e1 ▸ h2)
  · exact Or.inr ⟨e1.trans e2, le_trans d2 d1⟩⟩

instance : IsTotal FinalRow finalRel := ⟨by
  intro a b
  simp only [finalRel, strLt_iff]
  rcases lt_trichotomy a.city b.city with h | h | h
  · exact Or.inl (Or.inl h)
  · rcases le_total b.doi a.doi with hd | hd
    · exact Or.inl (Or.inr ⟨h, hd⟩)
    · exact Or.inr (Or.inr ⟨h.symm, hd⟩)
  · exact Or.inr (Or.inl h)⟩

/-- C10: the displayed `final_df` is always sorted with city ascending and,
within equal cities, DOI descending (line 87), and it is a permutation of
the unsorted final table, so the presentation is a deterministic reordering
of the same rows. -/
theorem C10_final_sorted (inv : List InventoryRow) (sales : List SalesRow)
    (x : ℕ) :
    List.Sorted finalRel (final_df inv sales x) ∧
    (final_df inv sales x).Perm (finalRows (pipelineDoiRows inv sales x)) :=
  ⟨List.sorted_insertionSort finalRel _, List.perm_insertionSort finalRel _⟩


/-! ## C1: the left-join shape of the reconciler -/

/-- The inventory-derived part of a merged row (all columns that the left
join copies from the left table). -/
def mergedLeftPart (m : MergedRow) : InvRenRow :=
  ⟨m.city, m.item_code, m.product_name, m.open_po_quantity, m.warehouse_qty⟩

/-- The join key carried by a merged row. -/
def mergedKey (m : MergedRow) : String × String × String :=
  (m.city, m.item_code, m.product_name)

/-- In a right table whose keys are pairwise distinct, at most one row
matches any given key. -/
theorem sales_filter_len_le_one (sg : List SalesGroupRow)
    (K : String × String × String) (h : (sg.map salesMergeKey).Nodup) :
    (sg.filter (fun s => salesMergeKey s = K)).length ≤ 1 := by
  induction sg with
  | nil => simp
  | cons s t ih =>
      simp only [List.map_cons, List.nodup_cons] at h
      by_cases hs : salesMergeKey s = K
      · have ht : t.filter (fun s2 => salesMergeKey s2 = K) = [] := by
          rw [List.filter_eq_nil_iff]
          intro a ha
          simp only [decide_eq_true_eq]
          intro he
          exact h.1 (List.mem_map.mpr ⟨a, ha, he.trans hs.symm⟩)
        simp [List.filter_cons, hs, ht]
      · have hd : (decide (salesMergeKey s = K)) = false := by simpa using hs
        simpa [List.filter_cons, hd] using ih h.2

/-- With pairwise-distinct right keys, each left row contributes exactly one
merged row, whose left part is the left row itself. -/
theorem mergeOne_map_left (sg : List SalesGroupRow) (i : InvRenRow)
    (h : (sg.map salesMergeKey).Nodup) :
    (mergeOne sg i).map mergedLeftPart = [i] := by
  have hlen := sales_filter_len_le_one sg (invMergeKey i) h
  simp only [mergeOne]
  cases hms : sg.filter (fun s => salesMergeKey s = invMergeKey i) with
  | nil => rfl
  | cons s rest =>
      rw [hms] at hlen
      cases rest with
      | nil => rfl
      | cons s2 rest2 => simp at hlen
  
/-- Every merged row carries the join key of the left row it came from. -/
theorem mergeOne_key (sg : List SalesGroupRow) (i : InvRenRow) :
    ∀ m ∈ mergeOne sg i, mergedKey m = invMergeKey i := by
  intro m hm
  simp only [mergeOne] at hm
  split at hm
  · rw [List.mem_singleton] at hm
    rw [hm]
    rfl
  · obtain ⟨s, -, rfl⟩ := List.mem_map.mp hm
    rfl

/-- A left row with no matching right key yields the single merged row with a
missing `UNITS_SOLD`. -/
theorem mergeOne_unmatched (sg : List SalesGroupRow) (i : InvRenRow)
    (h : ∀ s ∈ sg, salesMergeKey s ≠ invMergeKey i) :
    mergeOne sg i =
      [⟨i.city, i.item_code, i.product_name, i.open_po_quantity,
        i.warehouse_qty, none⟩] := by
  simp only [mergeOne]
  have hf : sg.filter (fun s => salesMergeKey s = invMergeKey i) = [] := by
    rw [List.filter_eq_nil_iff]
    intro s hs
    simpa using h s hs
  rw [hf]
  rfl

/-- With pairwise-distinct right keys, the left join lists the left table
exactly, in order. -/
theorem merged_map_left (invr : List InvRenRow) (sg : List SalesGroupRow)
    (h : (sg.map salesMergeKey).Nodup) :
    (merged invr sg).map mergedLeftPart = invr := by
  induction invr with
  | nil => rfl
  | cons i t ih =>
      simp only [merged, List.flatMap_cons, List.map_append] at ih ⊢
      rw [mergeOne_map_left sg i h, ih]
      rfl

/-- Sample inventory table for the C1 counterexample: one aggregated row. -/
def invC1 : List InventoryRow := [⟨"MUMBAI", "P1", "I1", 10, 100⟩]

/-- Sample sales for the C1 counterexample: two records for the same item
whose cities differ only in letter case. -/
def salesC1 : List SalesRow := [⟨1, "Mumbai", "I1", 5⟩, ⟨1, "MUMBAI", "I1", 3⟩]

/-- Counterexample to C1 as stated: the inventory aggregation of `invC1` has
exactly one row, yet that row appears twice in the merged output, because
upper-casing the sales cities after grouping (line 48) produced two sales
rows with the same join key. -/
theorem C1_exactly_once_counterexample :
    inventory_renamed (inventory_agg invC1) = [⟨"MUMBAI", "I1", "P1", 10, 100⟩] ∧
    (pipelineMerged invC1 salesC1 1).map mergedLeftPart
      = [⟨"MUMBAI", "I1", "P1", 10, 100⟩, ⟨"MUMBAI", "I1", "P1", 10, 100⟩] := by
  decide

/-- C1 (amended): the merge of lines 61–66 is a left join on (CITY,
ITEM_CODE, PRODUCT_NAME): (1) provided the aggregated sales keys are pairwise
distinct — which the duplicate-key counterexample shows can fail after the
post-grouping upper-casing — every aggregated inventory row appears exactly
once, in order; unconditionally, (2) a sales row whose key matches no
inventory row contributes to no merged row, and (3) a merged row matching no
sales key has its `UNITS_SOLD` filled to 0. -/
theorem C1_left_join (inv : List InventoryRow) (sales : List SalesRow)
    (x : ℕ) :
    (((sales_filtered_grouped
        (windowFilter (addProductName (inventory_agg inv) sales) x)).map
          salesMergeKey).Nodup →
      (pipelineMerged inv sales x).map mergedLeftPart
        = inventory_renamed (inventory_agg inv)) ∧
    (∀ s ∈ sales_filtered_grouped
        (windowFilter (addProductName (inventory_agg inv) sales) x),
      (∀ i ∈ inventory_renamed (inventory_agg inv),
        invMergeKey i ≠ salesMergeKey s) →
      ∀ m ∈ pipelineMerged inv sales x, mergedKey m ≠ salesMergeKey s) ∧
    (∀ m ∈ fillRows (pipelineMerged inv sales x),
      (∀ s ∈ sales_filtered_grouped
          (windowFilter (addProductName (inventory_agg inv) sales) x),
        salesMergeKey s ≠ (m.city, m.item_code, m.product_name)) →
      m.units_sold = 0) := by
  refine ⟨fun hnodup => merged_map_left _ _ hnodup, ?_, ?_⟩
  · intro s hs hnomatch m hm
    simp only [pipelineMerged, merged, List.mem_flatMap] at hm
    obtain ⟨i, hi, hmi⟩ := hm
    rw [mergeOne_key _ i m hmi]
    intro he
    exact hnomatch i hi he
  · intro m hm hnos
    simp only [fillRows, List.mem_map] at hm
    obtain ⟨m0, hm0, rfl⟩ := hm
    simp only [pipelineMerged, merged, List.mem_flatMap] at hm0
    obtain ⟨i, hi, hmi⟩ := hm0
    have hkey := mergeOne_key _ i m0 hmi
    have hun : mergeOne (sales_filtered_grouped
        (windowFilter (addProductName (inventory_agg inv) sales) x)) i =
        [⟨i.city, i.item_code, i.product_name, i.open_po_quantity,
          i.warehouse_qty, none⟩] := by
      apply mergeOne_unmatched
      intro s hs he
      exact hnos s hs (he.trans hkey.symm)
    rw [hun, List.mem_singleton] at hmi
    rw [hmi]
    simp [truncInt]

/-- Witness for C1 on the sample tables, whose aggregated sales keys are
pairwise distinct, so the exactly-once implication discharges. -/
theorem C1_left_join_witness :
    ((pipelineMerged invA salesA 5).map mergedLeftPart
        = inventory_renamed (inventory_agg invA)) ∧
    (∀ s ∈ sales_filtered_grouped
        (windowFilter (addProductName (inventory_agg invA) salesA) 5),
      (∀ i ∈ inventory_renamed (inventory_agg invA),
        invMergeKey i ≠ salesMergeKey s) →
      ∀ m ∈ pipelineMerged invA salesA 5, mergedKey m ≠ salesMergeKey s) ∧
    (∀ m ∈ fillRows (pipelineMerged invA salesA 5),
      (∀ s ∈ sales_filtered_grouped
          (windowFilter (addProductName (inventory_agg invA) salesA) 5),
        salesMergeKey s ≠ (m.city, m.item_code, m.product_name)) →
      m.units_sold = 0) :=
  ⟨(C1_left_join invA salesA 5).1 (by decide),
    (C1_left_join invA salesA 5).2.1, (C1_left_join invA salesA 5).2.2⟩


/-! ## C4: where the city upper-casing happens -/

/-- A sales grouping key with its city component upper-cased. -/
def upperKey (k : String × String × String) : String × String × String :=
  (strUpper k.1, k.2.1, k.2.2)

/-- A list containing two distinct elements has length at least two. -/
theorem two_le_length_of_mem {α : Type} {l : List α} {a b : α}
    (ha : a ∈ l) (hb : b ∈ l) (hne : a ≠ b) : 2 ≤ l.length := by
  cases l with
  | nil => simp at ha
  | cons x t =>
      cases t with
      | nil =>
          rw [List.mem_singleton] at ha hb
          exact absurd (ha.trans hb.symm) hne
      | cons y u => simp [List.length]

/-- A predicate holding at two distinct elements of a list is counted at
least twice. -/
theorem two_le_countP_of_mem {α : Type} (p : α → Bool) {l : List α} {a b : α}
    (ha : a ∈ l) (hb : b ∈ l) (hne : a ≠ b)
    (hpa : p a = true) (hpb : p b = true) : 2 ≤ l.countP p := by
  rw [List.countP_eq_length_filter]
  exact two_le_length_of_mem (List.mem_filter.mpr ⟨ha, hpa⟩)
    (List.mem_filter.mpr ⟨hb, hpb⟩) hne

/-- Sample sales rows whose cities differ only in letter case. -/
def spC4 : List SalesRowP :=
  [⟨1, "Mumbai", "I1", some "P1", 5⟩, ⟨1, "MUMBAI", "I1", some "P1", 3⟩]

/-- Counterexample to C4 as stated: the two `spC4` records, whose cities
differ only in case, do not fall into one group — lines 43–47 group them
case-sensitively into two rows (units 5 and 3, never a summed 8), and only
afterwards does line 48 upper-case both city values to "MUMBAI". -/
theorem C4_counterexample :
    (sales_filtered_grouped spC4).length = 2 ∧
    (sales_filtered_grouped spC4).map (·.units_sold) = [5, 3] ∧
    (sales_filtered_grouped spC4).map (·.city) = ["MUMBAI", "MUMBAI"] := by
  decide

/-- C4 (amended): the upper-casing of sales city values happens after the
grouping of lines 43–47, not before: two sales records with distinct raw
grouping keys that agree after upper-casing the city produce two distinct
rows of `sales_filtered_grouped_df` bearing the same upper-cased key. -/
theorem C4_upper_after_grouping (s : List SalesRowP)
    (k₁ k₂ : String × String × String)
    (h₁ : k₁ ∈ s.filterMap salesKey) (h₂ : k₂ ∈ s.filterMap salesKey)
    (hne : k₁ ≠ k₂) (hup : upperKey k₁ = upperKey k₂) :
    2 ≤ (sales_filtered_grouped s).countP
      (fun r => (r.city, r.product_name, r.item_code) = upperKey k₁) := by
  rw [sales_filtered_grouped, sales_grouped, List.map_map, List.countP_map]
  refine two_le_countP_of_mem _ (List.mem_dedup.mpr h₁) (List.mem_dedup.mpr h₂)
    hne ?_ ?_
  · simp [upperKey]
  · have : ((strUpper k₂.1, k₂.2.1, k₂.2.2) : String × String × String)
        = upperKey k₁ := hup.symm
    simp [this]

/-- Witness for C4 on the two case-differing sample records. -/
theorem C4_upper_after_grouping_witness :
    2 ≤ (sales_filtered_grouped spC4).countP
      (fun r => (r.city, r.product_name, r.item_code)
        = upperKey ("Mumbai", "P1", "I1")) :=
  C4_upper_after_grouping spC4 ("Mumbai", "P1", "I1") ("MUMBAI", "P1", "I1")
    (by decide) (by decide) (by decide) (by decide)


/-! ## C5: the detail view of the slicer -/

/-- An explicit (non-empty, All-free) selection resolves to itself. -/
theorem resolveSel_explicit (allOpts raw : List String)
    (hne : raw ≠ []) (hall : "All" ∉ raw) : resolveSel allOpts raw = raw := by
  rw [resolveSel, if_neg]
  rintro (h | h)
  · exact hall h
  · exact hne h

/-- An empty selection resolves to the full option list. -/
theorem resolveSel_empty (allOpts : List String) :
    resolveSel allOpts [] = allOpts := by
  simp [resolveSel]

/-- With two explicit selections, the filter of lines 164–166 restricts by
the raw selections themselves. -/
theorem slicerFiltered_explicit (final : List FinalRow)
    (selC selP : List String) (hC : selC ≠ []) (hCall : "All" ∉ selC)
    (hP : selP ≠ []) (hPall : "All" ∉ selP) :
    slicerFiltered final selC selP = final.filter
      (fun r => decide (r.city ∈ selC) && decide (r.product_name ∈ selP)) := by
  rw [slicerFiltered, resolveSel_explicit _ _ hC hCall,
    resolveSel_explicit _ _ hP hPall]

/-- C5: when both the city and the product selection are explicit (non-empty
and without "All"), the slicer's detail branch returns exactly the rows of
`final_df` restricted to the selection — no re-grouping, and each output
row, its DOI included, is identical to the corresponding `final_df` row, so
the rounded-and-floored DOI of the final table is reproduced unchanged. -/
theorem C5_detail_reuses_doi (inv : List InventoryRow) (sales : List SalesRow)
    (x : ℕ) (selC selP : List String)
    (hC : selC ≠ []) (hCall : "All" ∉ selC)
    (hP : selP ≠ []) (hPall : "All" ∉ selP) :
    slicer_detail (final_df inv sales x) x selC selP
      = (final_df inv sales x).filter
          (fun r => decide (r.city ∈ selC) && decide (r.product_name ∈ selP)) := by
  rw [slicer_detail, slicerFiltered_explicit _ _ _ hC hCall hP hPall,
    recomputeMetrics, List.map_map]
  have hid : ∀ r ∈ (final_df inv sales x).filter
      (fun r => decide (r.city ∈ selC) && decide (r.product_name ∈ selP)),
      ((fun r : DoiRow =>
        ({ city := r.city, item_code := r.item_code,
           product_name := r.product_name, units_sold := r.units_sold,
           warehouse_qty := r.warehouse_qty,
           open_po_quantity := r.open_po_quantity,
           doi := (⌊r.doi⌋ : ℚ) } : FinalRow)) ∘ recRow x) r = r := by
    intro r hr
    have hdoi := final_doi_eq inv sales x r (List.mem_of_mem_filter hr)
    simp only [Function.comp_apply, recRow]
    rw [← hdoi]
  rw [List.map_congr_left hid]
  exact List.map_id' _

/-- Witness for C5: an explicit city and product selection on the sample
final table. -/
theorem C5_detail_reuses_doi_witness :
    slicer_detail (final_df invA salesA 5) 5 ["MUMBAI"] ["Widget"]
      = (final_df invA salesA 5).filter
          (fun r => decide (r.city ∈ (["MUMBAI"] : List String)) &&
            decide (r.product_name ∈ (["Widget"] : List String))) :=
  C5_detail_reuses_doi invA salesA 5 ["MUMBAI"] ["Widget"]
    (by decide) (by decide) (by decide) (by decide)


/-! ## C6: the by-city regroup of the slicer -/

/-- Every product name of the final table is among the product options. -/
theorem mem_all_products (final : List FinalRow) :
    ∀ r ∈ final, r.product_name ∈ all_products final := by
  intro r hr
  rw [all_products, List.mem_insertionSort]
  exact List.mem_dedup.mpr (List.mem_map_of_mem _ hr)

/-- With an explicit city selection and an empty product selection, the
filter of lines 164–166 restricts by city membership alone. -/
theorem slicerFiltered_cities_only (final : List FinalRow)
    (selC : List String) (hC : selC ≠ []) (hCall : "All" ∉ selC) :
    slicerFiltered final selC [] =
      final.filter (fun r => decide (r.city ∈ selC)) := by
  rw [slicerFiltered, resolveSel_explicit _ _ hC hCall, resolveSel_empty]
  apply List.filter_congr
  intro r hr
  simp [mem_all_products final r hr]

/-- Filtering a duplicate-free list for one value yields that value alone. -/
theorem filter_eq_singleton_of_nodup {α : Type} [DecidableEq α] {l : List α}
    (h : l.Nodup) {c : α} (hc : c ∈ l) :
    l.filter (fun k => k = c) = [c] := by
  induction l with
  | nil => simp at hc
  | cons a t ih =>
      rw [List.nodup_cons] at h
      rcases List.mem_cons.mp hc with rfl | hct
      · have ht : t.filter (fun k => k = c) = [] := by
          rw [List.filter_eq_nil_iff]
          intro b hb
          simp only [decide_eq_true_eq]
          rintro rfl
          exact h.1 hb
        simp [List.filter_cons, ht]
      · have ha : a ≠ c := by rintro rfl; exact h.1 hct
        simp [List.filter_cons, ha, ih h.2 hct]

/-- The recomputation of lines 172–177 changes no grouping column: mapping a
column that it preserves commutes with restricting to one city. -/
theorem recRow_filter_map {β : Type} (x : ℕ) (l : List FinalRow) (c : String)
    (f : DoiRow → β) (g : FinalRow → β)
    (hfg : ∀ r, f (recRow x r) = g r) :
    ((l.map (recRow x)).filter (fun d => d.city = c)).map f
      = (l.filter (fun r => r.city = c)).map g := by
  induction l with
  | nil => rfl
  | cons r t ih =>
      have hc : (recRow x r).city = r.city := rfl
      simp only [List.map_cons, List.filter_cons, hc]
      by_cases h : r.city = c
      · simp [h, ih, hfg]
      · simp [h, ih]

/-- Restricting to one selected city subsumes the selection filter. -/
theorem filter_city_filter_sel (final : List FinalRow) (selC : List String)
    {c : String} (hc : c ∈ selC) :
    ((final.filter (fun r => decide (r.city ∈ selC))).filter
        (fun r => r.city = c))
      = final.filter (fun r => r.city = c) := by
  rw [List.filter_filter]
  apply List.filter_congr
  intro r hr
  by_cases h : r.city = c
  · simp [h, hc]
  · simp [h]

/-- Counting after a map is counting the pulled-back predicate. -/
theorem countP_map_eq {α β : Type} (f : α → β) (p : β → Bool) (q : α → Bool)
    (h : ∀ a, p (f a) = q a) (l : List α) :
    (l.map f).countP p = l.countP q := by
  induction l with
  | nil => rfl
  | cons a t ih => simp [List.countP_cons, ih, h]

/-- Each city present among the grouped rows heads exactly one output row of
the by-city aggregate. -/
theorem groupByCity_countP_one (x : ℕ) (rows : List DoiRow) (c : String)
    (hc : c ∈ rows.map (·.city)) :
    (groupByCity x rows).countP (fun g => g.city = c) = 1 := by
  rw [groupByCity]
  rw [countP_map_eq _ _ (fun k => decide (k = c)) (fun a => rfl) _]
  rw [List.countP_eq_length_filter,
    filter_eq_singleton_of_nodup (List.nodup_dedup _) (List.mem_dedup.mpr hc)]
  rfl


/-- Sample tables for the C6 aggregate-DOI conjunct: one city, two items,
row-level DOIs 10 and 0, aggregate DOI 15. -/
def invB : List InventoryRow := [⟨"A", "P1", "I1", 0, 10⟩, ⟨"A", "P2", "I2", 0, 5⟩]

/-- Sample sales for the C6 aggregate-DOI conjunct. -/
def salesB : List SalesRow := [⟨1, "A", "I1", 1⟩]

set_option maxHeartbeats 2000000 in
/-- C6: when only cities carry an explicit selection, the slicer outputs one
row per selected city (present in the final table); each row re-sums
units_sold, warehouse_qty and open_po_quantity over that city's final rows
and recomputes DAILY_SALES and DOI from the re-summed values (round, then
floor). On the sample table the aggregate DOI is 15 while the row-level DOIs
are 10 and 0, so the aggregate is neither their sum (10) nor their mean (5). -/
theorem C6_city_regroup (inv : List InventoryRow) (sales : List SalesRow)
    (x : ℕ) (selC : List String)
    (hne : selC ≠ []) (hall : "All" ∉ selC)
    (hsub : ∀ c ∈ selC, c ∈ (final_df inv sales x).map (·.city)) :
    (∀ c ∈ selC, (slicer_by_city (final_df inv sales x) x selC []).countP
        (fun g => g.city = c) = 1) ∧
    (∀ g ∈ slicer_by_city (final_df inv sales x) x selC [],
      g.city ∈ selC ∧
      g.units_sold = (((final_df inv sales x).filter
          (fun r => r.city = g.city)).map (·.units_sold)).sum ∧
      g.warehouse_qty = (((final_df inv sales x).filter
          (fun r => r.city = g.city)).map (·.warehouse_qty)).sum ∧
      g.open_po_quantity = (((final_df inv sales x).filter
          (fun r => r.city = g.city)).map (·.open_po_quantity)).sum ∧
      g.daily_sales = (g.units_sold : ℚ) / (x : ℚ) ∧
      g.doi = (⌊if 0 < g.daily_sales then
        round2 ((g.warehouse_qty : ℚ) / g.daily_sales) else 0⌋ : ℚ)) ∧
    ((slicer_by_city (final_df invB salesB 1) 1 ["A"] []).map (·.doi) = [15] ∧
      (final_df invB salesB 1).map (·.doi) = [10, 0] ∧
      (15 : ℚ) ≠ 10 + 0 ∧ (15 : ℚ) ≠ (10 + 0) / 2) := by
  have hsf : slicer_by_city (final_df inv sales x) x selC [] =
      groupByCity x (recomputeMetrics x
        ((final_df inv sales x).filter (fun r => decide (r.city ∈ selC)))) := by
    rw [slicer_by_city, slicerFiltered_cities_only _ _ hne hall]
  refine ⟨?_, ?_, by decide⟩
  · intro c hc
    rw [hsf]
    apply groupByCity_countP_one
    obtain ⟨r, hr, hrc⟩ := List.mem_map.mp (hsub c hc)
    have hrf : r ∈ (final_df inv sales x).filter
        (fun r => decide (r.city ∈ selC)) :=
      List.mem_filter.mpr ⟨hr, by simp [hrc, hc]⟩
    exact List.mem_map.mpr ⟨recRow x r,
      List.mem_map.mpr ⟨r, hrf, rfl⟩, hrc⟩
  · intro g hg
    rw [hsf, groupByCity] at hg
    obtain ⟨c, hcd, rfl⟩ := List.mem_map.mp hg
    have hcsel : c ∈ selC := by
      obtain ⟨d, hd, hdc⟩ := List.mem_map.mp (List.mem_dedup.mp hcd)
      obtain ⟨r, hrf, rfl⟩ := List.mem_map.mp hd
      have := (List.mem_filter.mp hrf).2
      simp only [decide_eq_true_eq] at this
      exact hdc ▸ this
    refine ⟨hcsel, ?_, ?_, ?_, rfl, rfl⟩
    · show (((recomputeMetrics x ((final_df inv sales x).filter
          (fun r => decide (r.city ∈ selC)))).filter
            (fun r => r.city = c)).map (·.units_sold)).sum
        = (((final_df inv sales x).filter
            (fun r => r.city = c)).map (·.units_sold)).sum
      rw [recomputeMetrics,
        recRow_filter_map x _ c (·.units_sold) (·.units_sold) (fun r => rfl),
        filter_city_filter_sel _ _ hcsel]
    · show (((recomputeMetrics x ((final_df inv sales x).filter
          (fun r => decide (r.city ∈ selC)))).filter
            (fun r => r.city = c)).map (·.warehouse_qty)).sum
        = (((final_df inv sales x).filter
            (fun r => r.city = c)).map (·.warehouse_qty)).sum
      rw [recomputeMetrics,
        recRow_filter_map x _ c (·.warehouse_qty) (·.warehouse_qty) (fun r => rfl),
        filter_city_filter_sel _ _ hcsel]
    · show (((recomputeMetrics x ((final_df inv sales x).filter
          (fun r => decide (r.city ∈ selC)))).filter
            (fun r => r.city = c)).map (·.open_po_quantity)).sum
        = (((final_df inv sales x).filter
            (fun r => r.city = c)).map (·.open_po_quantity)).sum
      rw [recomputeMetrics,
        recRow_filter_map x _ c (·.open_po_quantity) (·.open_po_quantity)
          (fun r => rfl),
        filter_city_filter_sel _ _ hcsel]


set_option maxHeartbeats 2000000 in
/-- Witness for C6: the explicit selection of the single sample city. -/
theorem C6_city_regroup_witness :
    (∀ c ∈ (["MUMBAI"] : List String),
      (slicer_by_city (final_df invA salesA 5) 5 ["MUMBAI"] []).countP
        (fun g => g.city = c) = 1) ∧
    (∀ g ∈ slicer_by_city (final_df invA salesA 5) 5 ["MUMBAI"] [],
      g.city ∈ (["MUMBAI"] : List String) ∧
      g.units_sold = (((final_df invA salesA 5).filter
          (fun r => r.city = g.city)).map (·.units_sold)).sum ∧
      g.warehouse_qty = (((final_df invA salesA 5).filter
          (fun r => r.city = g.city)).map (·.warehouse_qty)).sum ∧
      g.open_po_quantity = (((final_df invA salesA 5).filter
          (fun r => r.city = g.city)).map (·.open_po_quantity)).sum ∧
      g.daily_sales = (g.units_sold : ℚ) / ((5 : ℕ) : ℚ) ∧
      g.doi = (⌊if 0 < g.daily_sales then
        round2 ((g.warehouse_qty : ℚ) / g.daily_sales) else 0⌋ : ℚ)) ∧
    ((slicer_by_city (final_df invB salesB 1) 1 ["A"] []).map (·.doi) = [15] ∧
      (final_df invB salesB 1).map (·.doi) = [10, 0] ∧
      (15 : ℚ) ≠ 10 + 0 ∧ (15 : ℚ) ≠ (10 + 0) / 2) :=
  C6_city_regroup invA salesA 5 ["MUMBAI"] (by decide) (by decide) (by decide)

end SwiggyDoi
